import Mathlib

/-!
Verification of the `thor` BitTorrent client's bencoding codec
(`src/bencoding`) and UDP tracker client (`src/client/src/tracker.rs`),
as a shallow embedding in Lean.

Bytes are modelled as `Nat` (values < 256), byte buffers as `List Nat`.
Rust panics (`assert!`, `unwrap`, arithmetic underflow) are modelled by
`Option.none`; `Except` carries the library's `Error` values.
-/

namespace Thor

/-- ASCII bytes of a Lean string (used for ASCII literals only). -/
def sb (s : String) : List Nat := s.data.map Char.toNat

/-- Decimal digits of `n`, most significant first, as ASCII bytes.
Fuel-based so that it reduces in the kernel; fuel `n+1` always suffices.
Mirrors Rust's `Display` for unsigned integers (`write!("{}", n)`). -/
def natDigitsCore : Nat → Nat → List Nat → List Nat
  | 0, _, acc => acc
  | fuel+1, n, acc =>
    let acc' := (48 + n % 10) :: acc
    if n < 10 then acc' else natDigitsCore fuel (n / 10) acc'

def natDigits (n : Nat) : List Nat := natDigitsCore (n + 1) n []

/-- ASCII rendering of a signed integer, as Rust's `Display` for `i64`
(`write!("{}", v)`): minus sign for negatives, minimal digits. -/
def intToBytes (i : Int) : List Nat :=
  if i < 0 then 45 :: natDigits i.natAbs else natDigits i.toNat

/-- `utils::write_integer` / old `serialize_i64`: the bytes `i<decimal>e`. -/
def encInt (i : Int) : List Nat := 105 :: intToBytes i ++ [101]

/-- `utils::write_unsigned` / `serialize_u64`: the bytes `i<decimal>e`. -/
def encUInt (n : Nat) : List Nat := 105 :: natDigits n ++ [101]

/-- `Serializer::serialize_bytes`: `<len>:<bytes>`. -/
def encByteStr (s : List Nat) : List Nat := natDigits s.length ++ 58 :: s

/-- Unsigned lexicographic `≤` on byte sequences: the order of Rust's
`Ord for Vec<u8>`, used by `sort_by_cached_key`. -/
def bytesLe : List Nat → List Nat → Bool
  | [], _ => true
  | _ :: _, [] => false
  | a :: as_, b :: bs => if a < b then true else if b < a then false else bytesLe as_ bs

/-- The sort key extracted in `write_dict_with_ordered_pairs`: the content
after the first `:` (byte 58) of an encoded key.  (Total version; the byte
`58` is always present for keys produced by `serialize_bytes`.) -/
def postColon (k : List Nat) : List Nat :=
  k.drop (((k.findIdx? (fun b => b == 58)).getD 0) + 1)

/-- Insert `x` into `l` before the first element strictly greater than it:
the insertion step of a stable insertion sort for the total preorder `le`. -/
def sortInsert (le : α → α → Bool) (x : α) : List α → List α
  | [] => [x]
  | y :: ys => if le x y && !(le y x) then x :: y :: ys else y :: sortInsert le x ys

/-- Stable insertion sort.  A stable sort's output is uniquely determined
by the comparator (the sorted permutation preserving the relative order of
ties), so this computes exactly what Rust's stable `sort_by_cached_key`
computes for the same comparison. -/
def stableSort (le : α → α → Bool) (l : List α) : List α :=
  l.foldl (fun acc x => sortInsert le x acc) []

/-- `ordered_pairs.sort_by_cached_key(...)`: stable sort of the
(encoded key, encoded value) pairs by the post-`:` content of the key
(compared as raw bytes, `Ord for Vec<u8>`). -/
def sortPairs (ps : List (List Nat × List Nat)) : List (List Nat × List Nat) :=
  stableSort (fun p q => bytesLe (postColon p.1) (postColon q.1)) ps

/-- `write_dict_with_ordered_pairs`: sort the collected pairs by raw key
bytes, then emit `d`, each `key ++ value`, and `e`, appended to `output`.
Returns `none` (panic) when some key has no `:` (`.expect("should have a :")`). -/
def write_dict_with_ordered_pairs (ps : List (List Nat × List Nat))
    (output : List Nat) : Option (List Nat) :=
  if ps.all (fun p => (p.1.findIdx? (fun b => b == 58)).isSome) then
    some (output ++ 100 :: ((sortPairs ps).map (fun p => p.1 ++ p.2)).flatten ++ [101])
  else
    none

/-- `MapState` of `ser/mod.rs`. -/
structure MapState where
  ordered_pairs : List (List Nat × List Nat)
  output : List Nat
  current_key : List Nat
deriving Repr, DecidableEq

/-- The mutable state of `ser/mod.rs`'s `Serializer`. -/
structure SerState where
  output : List Nat
  map_state : Option MapState
deriving Repr, DecidableEq

/-- The serde data-model values the thor codec serializes: the static
schema drives which `serialize_*` method runs for each position. -/
inductive BValue where
  /-- `bool`/`i8`/`i16`/`i32`/`i64`, all routed into `serialize_i64`. -/
  | vInt (n : Int)
  /-- `u8`/`u16`/`u32`/`u64`, routed into `serialize_u64`. -/
  | vUInt (n : Nat)
  /-- `&str` / `String` / `char` / byte buffers: `serialize_bytes`. -/
  | vStr (s : List Nat)
  /-- `Option::None`: `serialize_none` writes nothing. -/
  | vNone
  /-- `Vec` / slices / tuples: `serialize_seq`. -/
  | vList (xs : List BValue)
  /-- A derived struct: named fields in declaration order (`serialize_struct`). -/
  | vStruct (fields : List (List Nat × BValue))
  /-- A map: (key, value) entries in iteration order (`serialize_map`). -/
  | vMap (entries : List (BValue × BValue))
  /-- Unit enum variant (`serialize_unit_variant`). -/
  | vUnitVariant (name : List Nat)
  /-- Newtype enum variant (`serialize_newtype_variant`). -/
  | vNewtypeVariant (name : List Nat) (v : BValue)
  /-- Tuple enum variant (`serialize_tuple_variant`). -/
  | vTupleVariant (name : List Nat) (vs : List BValue)
  /-- Struct enum variant (`serialize_struct_variant`). -/
  | vStructVariant (name : List Nat) (fields : List (List Nat × BValue))
deriving Repr

/-- `SerializeStruct::end` and `SerializeMap::end`: write the sorted
dictionary into `map_state.output` (the asserts are `none` on failure). -/
def serializeDictEnd (st : SerState) : Option SerState :=
  match st.map_state with
  | Option.none => Option.none
  | some ms =>
    match write_dict_with_ordered_pairs ms.ordered_pairs ms.output with
    | Option.none => Option.none
    | some out =>
      some { st with map_state := some { ms with ordered_pairs := [], output := out } }

/-- `SerializeStructVariant::end`: as `serializeDictEnd`, then a closing
`e` appended to `map_state.output`. -/
def serializeStructVariantEnd (st : SerState) : Option SerState :=
  match st.map_state with
  | Option.none => Option.none
  | some ms =>
    match write_dict_with_ordered_pairs ms.ordered_pairs ms.output with
    | Option.none => Option.none
    | some out =>
      some { st with map_state := some { ms with ordered_pairs := [], output := out ++ [101] } }

mutual

/-- The serializer of `ser/mod.rs`, as the state transformer induced by a
derived `Serialize` implementation calling the `Serializer` methods.
`Option.none` models a panic (a failed `assert!` or `expect`). -/
def serialize : BValue → SerState → Option SerState
  | .vInt n, st => some { st with output := st.output ++ encInt n }
  | .vUInt n, st => some { st with output := st.output ++ encUInt n }
  | .vStr s, st => some { st with output := st.output ++ encByteStr s }
  | .vNone, st => some st
  | .vList xs, st => do
    -- serialize_seq writes `l`; elements via SerializeSeq::serialize_element;
    -- SerializeSeq::end writes `e`.
    let st1 ← serializeSeqElems xs { st with output := st.output ++ [108] }
    pure { st1 with output := st1.output ++ [101] }
  | .vStruct fields, st =>
    -- serialize_struct → serialize_map: assert!(self.map_state.is_none()),
    -- then a fresh MapState; fields; SerializeStruct::end.
    match st.map_state with
    | some _ => Option.none
    | Option.none => do
      let st1 ← serializeStructFields fields { output := st.output, map_state := some ⟨[], [], []⟩ }
      serializeDictEnd st1
  | .vMap entries, st =>
    match st.map_state with
    | some _ => Option.none
    | Option.none => do
      let st1 ← serializeMapEntries entries { output := st.output, map_state := some ⟨[], [], []⟩ }
      serializeDictEnd st1
  | .vUnitVariant name, st =>
    -- serialize_unit_variant → serialize_str(variant)
    some { st with output := st.output ++ encByteStr name }
  | .vNewtypeVariant name v, st =>
    -- serialize_map(None); serialize_key(variant); serialize_value(value); end.
    -- serialize_key on the &str variant name parks the output in
    -- current_key, serializes the name into the emptied buffer and swaps
    -- back: net effect, current_key := encByteStr name, output restored.
    match st.map_state with
    | some _ => Option.none
    | Option.none => do
      let st1 : SerState := { output := st.output, map_state := some ⟨[], [], encByteStr name⟩ }
      let st2 ← serializeMapValue v st1
      serializeDictEnd st2
  | .vTupleVariant name vs, st => do
    -- output += "d"; variant.serialize (serialize_str); output += "l";
    -- fields via SerializeTupleVariant::serialize_field (plain serialize,
    -- no map_state flush); end writes "ee".
    let st1 ← serializeTupleElems vs
      { st with output := st.output ++ 100 :: encByteStr name ++ [108] }
    pure { st1 with output := st1.output ++ [101, 101] }
  | .vStructVariant name fields, st =>
    -- output += "d"; variant.serialize; then serialize_map (assert) and fields;
    -- SerializeStructVariant::end.
    match st.map_state with
    | some _ => Option.none
    | Option.none => do
      let st1 ← serializeStructFields fields
        { output := st.output ++ 100 :: encByteStr name, map_state := some ⟨[], [], []⟩ }
      serializeStructVariantEnd st1

/-- `SerializeSeq::serialize_element` over the elements: serialize, then
flush a pending `map_state.output` into `output`. -/
def serializeSeqElems : List BValue → SerState → Option SerState
  | [], st => some st
  | x :: xs, st => do
    let st1 ← serialize x st
    let st2 : SerState :=
      match st1.map_state with
      | some ms => { output := st1.output ++ ms.output, map_state := Option.none }
      | Option.none => st1
    serializeSeqElems xs st2

/-- `SerializeTupleVariant::serialize_field` over the elements: plain
serialization with no flush. -/
def serializeTupleElems : List BValue → SerState → Option SerState
  | [], st => some st
  | x :: xs, st => do
    let st1 ← serialize x st
    serializeTupleElems xs st1

/-- `SerializeStruct::serialize_field` over the declared fields. -/
def serializeStructFields : List (List Nat × BValue) → SerState → Option SerState
  | [], st => some st
  | (k, v) :: rest, st =>
    match st.map_state with
    | Option.none => Option.none
    | some ms => do
      -- serialized_key: output is swapped out, the &'static str key is
      -- serialized into the empty buffer, and the swap undone.
      let kb := encByteStr k
      -- backup_map_state = self.map_state.take();
      -- serialized_value: swap with output, serialize from an empty buffer.
      let stV ← serialize v { output := [], map_state := Option.none }
      -- If the value produced a map_state, its output is swapped into
      -- serialized_value and the old `self.output` is dropped with it;
      -- otherwise the swap restores the old output.
      let sv := match stV.map_state with
        | some msV => msV.output
        | Option.none => stV.output
      let outAfter := match stV.map_state with
        | some _ => stV.output
        | Option.none => st.output
      let ms' := if sv = [] then ms
        else { ms with ordered_pairs := ms.ordered_pairs ++ [(kb, sv)] }
      serializeStructFields rest { output := outAfter, map_state := some ms' }

/-- `SerializeMap::serialize_key`: the current output is parked in
`current_key` while the key serializes into an empty buffer, then the two
are swapped so `current_key` holds the encoded key. -/
def serializeMapKey (k : BValue) (st : SerState) : Option SerState :=
  match st.map_state with
  | Option.none => Option.none
  | some ms => do
    let stK ← serialize k { output := [], map_state := some { ms with current_key := st.output } }
    match stK.map_state with
    | Option.none => Option.none
    | some ms2 =>
      some { output := ms2.current_key, map_state := some { ms2 with current_key := stK.output } }

/-- `SerializeMap::serialize_value`: same buffer dance as
`serializeStructFields`, pushing `(current_key, value)` when nonempty. -/
def serializeMapValue (v : BValue) (st : SerState) : Option SerState :=
  match st.map_state with
  | Option.none => Option.none
  | some ms => do
    let stV ← serialize v { output := [], map_state := Option.none }
    let sv := match stV.map_state with
      | some msV => msV.output
      | Option.none => stV.output
    let outAfter := match stV.map_state with
      | some _ => stV.output
      | Option.none => st.output
    let ms' := if sv = [] then ms
      else { ms with ordered_pairs := ms.ordered_pairs ++ [(ms.current_key, sv)] }
    some { output := outAfter, map_state := some ms' }

/-- `SerializeMap` over the entries: `serialize_key` then `serialize_value`. -/
def serializeMapEntries : List (BValue × BValue) → SerState → Option SerState
  | [], st => some st
  | (k, v) :: rest, st => do
    let st1 ← serializeMapKey k st
    let st2 ← serializeMapValue v st1
    serializeMapEntries rest st2

end

/-- `ser::to_bytes` (`ser/mod.rs`): run the serializer on the empty state;
a leftover `map_state.output` is appended to `output`. -/
def to_bytes (v : BValue) : Option (List Nat) := do
  let st ← serialize v { output := [], map_state := Option.none }
  match st.map_state with
  | some ms => pure (st.output ++ ms.output)
  | Option.none => pure st.output

/-! ## The decoder (`src/bencoding/src/de.rs`) -/

/-- `bencoding::Error` (`src/bencoding/src/error.rs`).  `syn` is the
source's `Syntax` variant. -/
inductive Error where
  | msg (s : String)
  | eof
  | syn
  | trailingCharacters
  | expectedInteger
  | expectedIntegerEnd
  | expectedByteString
  | expectedChar
  | expectedString
  | expectedList
  | expectedMap
  | expectedMapEnd
  | expectedArrayEnd
  | expectedEnum
  | expectedSequence
deriving Repr, DecidableEq

/-- The static schema driving deserialization: which `deserialize_*`
method the derived `Deserialize` implementation calls at each position. -/
inductive Schema where
  | sBool
  | sU8
  | sU16
  | sU32
  | sU64
  | sI8
  | sI16
  | sI32
  | sI64
  /-- `String` / `&str` (UTF-8 checked) -/
  | sStr
  /-- raw byte buffers (`deserialize_bytes`, no UTF-8 check) -/
  | sBytes
  | sOption (s : Schema)
  | sList (s : Schema)
  /-- a derived struct: field names with their schemas, in declaration order -/
  | sRecord (fields : List (List Nat × Schema))
deriving Repr

/-- Decoded values (the serde data model on the output side). -/
inductive DValue where
  | dBool (b : Bool)
  | dUInt (n : Nat)
  | dInt (i : Int)
  | dStr (s : List Nat)
  | dList (xs : List DValue)
  /-- struct fields in schema declaration order -/
  | dRecord (fields : List (List Nat × DValue))
  /-- an optional position: `Option.none` models an absent field -/
  | dOpt (o : Option DValue)
deriving Repr

/-- Is `b` an ASCII digit (`b'0'..=b'9'`)? -/
def isDigit (b : Nat) : Bool := 48 ≤ b && b ≤ 57

/-- The digit-accumulation loop of `Deserializer::parse_unsigned`: each
`int *= 10; int += d` wraps modulo `2^w` (Rust release-profile overflow
semantics for the width-`w` unsigned type; a debug build would panic). -/
def parseUnsignedLoop (w : Nat) (acc : Nat) : List Nat → Nat × List Nat
  | [] => (acc, [])
  | b :: rest =>
    if isDigit b then parseUnsignedLoop w ((acc * 10 + (b - 48)) % 2 ^ w) rest
    else (acc, b :: rest)

/-- `Deserializer::parse_unsigned::<T>` for a width-`w` unsigned `T`:
one mandatory digit then greedy digits, no `e` handling, no leading-zero
or overflow rejection (the source comments it is "a bit too lenient"). -/
def parse_unsigned (w : Nat) : List Nat → Except Error (Nat × List Nat)
  | [] => .error .eof
  | b :: rest =>
    if isDigit b then .ok (parseUnsignedLoop w (b - 48) rest)
    else .error .expectedInteger

/-- Two's-complement wrap of an integer into the signed width `w`. -/
def wrapI (w : Nat) (x : Int) : Int := (x + 2 ^ (w - 1)) % 2 ^ w - 2 ^ (w - 1)

/-- The digit loop of `Deserializer::parse_signed` (wrapping as `wrapI`). -/
def parseSignedLoop (w : Nat) (acc : Int) : List Nat → Int × List Nat
  | [] => (acc, [])
  | b :: rest =>
    if isDigit b then parseSignedLoop w (wrapI w (acc * 10 + ((b : Int) - 48))) rest
    else (acc, b :: rest)

/-- `Deserializer::parse_signed::<T>` for a width-`w` signed `T`:
optional `-`, one mandatory digit, greedy digits, final negation
(wrapping). -/
def parse_signed (w : Nat) : List Nat → Except Error (Int × List Nat)
  | [] => .error .eof
  | b :: rest =>
    let (isNeg, afterSign) := if b = 45 then (true, rest) else (false, b :: rest)
    match afterSign with
    | [] => .error .eof
    | c :: rest' =>
      if isDigit c then
        let (i, rem) := parseSignedLoop w ((c : Int) - 48) rest'
        .ok ((if isNeg then wrapI w (-i) else i), rem)
      else .error .expectedInteger

/-- `Deserializer::parse_bencoding_num_unsigned`: `i`, digits, `e`. -/
def parse_bencoding_num_unsigned (w : Nat) : List Nat → Except Error (Nat × List Nat)
  | [] => .error .eof
  | b :: rest =>
    if b = 105 then
      match parse_unsigned w rest with
      | .error e => .error e
      | .ok (n, r1) =>
        match r1 with
        | [] => .error .eof
        | c :: r2 => if c = 101 then .ok (n, r2) else .error .expectedIntegerEnd
    else .error .expectedInteger

/-- `Deserializer::parse_bencoding_num_signed`: `i`, signed digits, `e`. -/
def parse_bencoding_num_signed (w : Nat) : List Nat → Except Error (Int × List Nat)
  | [] => .error .eof
  | b :: rest =>
    if b = 105 then
      match parse_signed w rest with
      | .error e => .error e
      | .ok (n, r1) =>
        match r1 with
        | [] => .error .eof
        | c :: r2 => if c = 101 then .ok (n, r2) else .error .expectedIntegerEnd
    else .error .expectedInteger

/-- `Deserializer::parse_byte_string`: decimal length (a `usize`, width
64), `:`, then exactly `length` bytes (`Eof` if fewer remain). -/
def parse_byte_string (input : List Nat) : Except Error (List Nat × List Nat) :=
  match parse_unsigned 64 input with
  | .error e => .error e
  | .ok (len, r1) =>
    match r1 with
    | [] => .error .eof
    | b :: r2 =>
      if b ≠ 58 then .error .expectedByteString
      else if r2.length < len then .error .eof
      else .ok (r2.take len, r2.drop len)

/-- Validity per Rust's `str::from_utf8` (RFC 3629: no overlongs, no
surrogates, max U+10FFFF), byte-level. -/
def isValidUtf8 : List Nat → Bool
  | [] => true
  | b :: rest =>
    if b < 0x80 then isValidUtf8 rest
    else if 0xC2 ≤ b && b ≤ 0xDF then
      match rest with
      | c1 :: r => (0x80 ≤ c1 && c1 ≤ 0xBF) && isValidUtf8 r
      | [] => false
    else if 0xE0 ≤ b && b ≤ 0xEF then
      match rest with
      | c1 :: c2 :: r =>
        let lo1 := if b = 0xE0 then 0xA0 else 0x80
        let hi1 := if b = 0xED then 0x9F else 0xBF
        (lo1 ≤ c1 && c1 ≤ hi1) && (0x80 ≤ c2 && c2 ≤ 0xBF) && isValidUtf8 r
      | _ => false
    else if 0xF0 ≤ b && b ≤ 0xF4 then
      match rest with
      | c1 :: c2 :: c3 :: r =>
        let lo1 := if b = 0xF0 then 0x90 else 0x80
        let hi1 := if b = 0xF4 then 0x8F else 0xBF
        (lo1 ≤ c1 && c1 ≤ hi1) && (0x80 ≤ c2 && c2 ≤ 0xBF) && (0x80 ≤ c3 && c3 ≤ 0xBF)
          && isValidUtf8 r
      | _ => false
    else false

/-- `Deserializer::parse_string`: a byte string that must be UTF-8
(`ExpectedString` otherwise). -/
def parse_string (input : List Nat) : Except Error (List Nat × List Nat) :=
  match parse_byte_string input with
  | .error e => .error e
  | .ok (s, rest) => if isValidUtf8 s then .ok (s, rest) else .error .expectedString

/-- A record field slot during `visit_map`: the declared (name, schema)
with the value decoded so far, as in the derived struct visitor. -/
abbrev Slot := (List Nat × Schema) × Option DValue

/-- Look up the declared schema and current content for a key. -/
def slotGet : List Slot → List Nat → Option (Schema × Option DValue)
  | [], _ => Option.none
  | ((name, sch), v) :: rest, key =>
    if name = key then some (sch, v) else slotGet rest key

/-- Record a decoded value for a key (first matching slot). -/
def slotFill : List Slot → List Nat → DValue → List Slot
  | [], _, _ => []
  | ((name, sch), old) :: rest, key, v =>
    if name = key then ((name, sch), some v) :: rest
    else ((name, sch), old) :: slotFill rest key v

/-- End of `visit_map` in the derived struct visitor: a missing `Option`
field defaults to `None`; any other missing field is a
`de::Error::missing_field` (an `Error::Message`). -/
def finalizeSlots : List Slot → Except Error (List (List Nat × DValue))
  | [] => .ok []
  | ((name, sch), v) :: rest =>
    match v with
    | some dv =>
      match finalizeSlots rest with
      | .error e => .error e
      | .ok tl => .ok ((name, dv) :: tl)
    | Option.none =>
      match sch with
      | .sOption _ =>
        match finalizeSlots rest with
        | .error e => .error e
        | .ok tl => .ok ((name, .dOpt Option.none) :: tl)
      | _ => .error (.msg "missing field")

/-- Strip a chain of `sOption` constructors, counting the layers.
`deserialize_option` consumes no input and immediately visits the inner
type, so a chain of `n` option layers is `n` nested `visit_some` calls
around the base type's deserialization. -/
def stripOpts : Schema → Nat × Schema
  | .sOption s => let (n, t) := stripOpts s; (n + 1, t)
  | s => (0, s)

/-- Wrap a decoded value in `n` present-option layers (`visit_some`). -/
def dOptWrap : Nat → DValue → DValue
  | 0, v => v
  | n + 1, v => .dOpt (some (dOptWrap n v))

mutual

/-- `T::deserialize(&mut Deserializer)` for the schema `T`, returning the
decoded value and the unconsumed input.  The fuel argument only bounds
recursion depth (it is structural; `Option.none` means the fuel ran out,
which `from_bytes`'s initial fuel prevents).  Record decoding follows the
serde-derived struct visitor (match known field names, skip unknown keys
via `deserialize_ignored_any`, missing `Option` fields become `None`). -/
def decodeValue : Nat → Schema → List Nat → Option (Except Error (DValue × List Nat))
  | 0, _, _ => Option.none
  | fuel + 1, s, input =>
    match s with
    | .sBool =>
      -- deserialize_bool: parse_bencoding_num_unsigned::<u32>, visit num != 0
      match parse_bencoding_num_unsigned 32 input with
      | .error e => some (.error e)
      | .ok (n, rest) => some (.ok (.dBool (n ≠ 0), rest))
    | .sU8 =>
      match parse_bencoding_num_unsigned 8 input with
      | .error e => some (.error e)
      | .ok (n, rest) => some (.ok (.dUInt n, rest))
    | .sU16 =>
      match parse_bencoding_num_unsigned 16 input with
      | .error e => some (.error e)
      | .ok (n, rest) => some (.ok (.dUInt n, rest))
    | .sU32 =>
      match parse_bencoding_num_unsigned 32 input with
      | .error e => some (.error e)
      | .ok (n, rest) => some (.ok (.dUInt n, rest))
    | .sU64 =>
      match parse_bencoding_num_unsigned 64 input with
      | .error e => some (.error e)
      | .ok (n, rest) => some (.ok (.dUInt n, rest))
    | .sI8 =>
      match parse_bencoding_num_signed 8 input with
      | .error e => some (.error e)
      | .ok (i, rest) => some (.ok (.dInt i, rest))
    | .sI16 =>
      match parse_bencoding_num_signed 16 input with
      | .error e => some (.error e)
      | .ok (i, rest) => some (.ok (.dInt i, rest))
    | .sI32 =>
      match parse_bencoding_num_signed 32 input with
      | .error e => some (.error e)
      | .ok (i, rest) => some (.ok (.dInt i, rest))
    | .sI64 =>
      match parse_bencoding_num_signed 64 input with
      | .error e => some (.error e)
      | .ok (i, rest) => some (.ok (.dInt i, rest))
    | .sStr =>
      match parse_string input with
      | .error e => some (.error e)
      | .ok (bs, rest) => some (.ok (.dStr bs, rest))
    | .sBytes =>
      match parse_byte_string input with
      | .error e => some (.error e)
      | .ok (bs, rest) => some (.ok (.dStr bs, rest))
    | .sOption s' =>
      -- deserialize_option always calls visitor.visit_some(self); a chain
      -- of option layers is handled at once (see stripOpts)
      match stripOpts s' with
      | (n, base) =>
        match decodeValue fuel base input with
        | Option.none => Option.none
        | some (.error e) => some (.error e)
        | some (.ok (v, rest)) => some (.ok (dOptWrap (n + 1) v, rest))
    | .sList s' =>
      -- deserialize_seq: `l`, elements until the lookahead is `e`, `e`
      match input with
      | [] => some (.error .eof)
      | b :: rest =>
        if b = 108 then
          match decodeListElems fuel s' rest with
          | Option.none => Option.none
          | some (.error e) => some (.error e)
          | some (.ok (xs, r1)) =>
            match r1 with
            | [] => some (.error .eof)
            | c :: r2 =>
              if c = 101 then some (.ok (.dList xs, r2))
              else some (.error .expectedArrayEnd)
        else some (.error .expectedList)
    | .sRecord fields =>
      -- deserialize_struct → deserialize_map: `d`, entries, `e`
      match input with
      | [] => some (.error .eof)
      | b :: rest =>
        if b = 100 then
          match decodeRecordEntries fuel (fields.map (fun f => (f, Option.none))) rest with
          | Option.none => Option.none
          | some (.error e) => some (.error e)
          | some (.ok (slots, r1)) =>
            match finalizeSlots slots with
            | .error e => some (.error e)
            | .ok rec' =>
              match r1 with
              | [] => some (.error .eof)
              | c :: r2 =>
                if c = 101 then some (.ok (.dRecord rec', r2))
                else some (.error .expectedMapEnd)
        else some (.error .expectedMap)

/-- The `SeqAccess` loop (`Values::next_element_seed`): stop when the
lookahead is `e`, `Eof` on empty input, else decode an element. -/
def decodeListElems : Nat → Schema → List Nat → Option (Except Error (List DValue × List Nat))
  | 0, _, _ => Option.none
  | fuel + 1, s, input =>
    match input with
    | [] => some (.error .eof)
    | b :: _ =>
      if b = 101 then some (.ok ([], input))
      else
        match decodeValue fuel s input with
        | Option.none => Option.none
        | some (.error e) => some (.error e)
        | some (.ok (v, r1)) =>
          match decodeListElems fuel s r1 with
          | Option.none => Option.none
          | some (.error e) => some (.error e)
          | some (.ok (vs, r2)) => some (.ok (v :: vs, r2))

/-- The `MapAccess` loop (`Values::next_key_seed` / `next_value_seed`)
as driven by the derived struct visitor.  Keys must start with a digit
(`ExpectedString` otherwise); a known key decodes its field's schema
(duplicates are a serde `duplicate_field` error); an unknown key's value
is skipped with `deserialize_ignored_any`. -/
def decodeRecordEntries :
    Nat → List Slot → List Nat → Option (Except Error (List Slot × List Nat))
  | 0, _, _ => Option.none
  | fuel + 1, slots, input =>
    match input with
    | [] => some (.error .eof)
    | b :: _ =>
      if b = 101 then some (.ok (slots, input))
      else if isDigit b then
        match parse_string input with
        | .error e => some (.error e)
        | .ok (key, r1) =>
          match slotGet slots key with
          | some (sch, old) =>
            if old.isSome then some (.error (.msg "duplicate field"))
            else
              match decodeValue fuel sch r1 with
              | Option.none => Option.none
              | some (.error e) => some (.error e)
              | some (.ok (v, r2)) => decodeRecordEntries fuel (slotFill slots key v) r2
          | Option.none =>
            match skipValue fuel r1 with
            | Option.none => Option.none
            | some (.error e) => some (.error e)
            | some (.ok r2) => decodeRecordEntries fuel slots r2
      else some (.error .expectedString)

/-- `deserialize_ignored_any` → `deserialize_any`: lookahead-driven skip
of one value of any shape (digit → string, `i` → integer with a second
lookahead for `-`, `l` → list, `d` → map, else `Syntax`). -/
def skipValue : Nat → List Nat → Option (Except Error (List Nat))
  | 0, _ => Option.none
  | fuel + 1, input =>
    match input with
    | [] => some (.error .eof)
    | b :: rest =>
      if isDigit b then
        match parse_string input with
        | .error e => some (.error e)
        | .ok (_, r) => some (.ok r)
      else if b = 105 then
        -- peek_two_bytes
        match rest with
        | [] => some (.error .eof)
        | c :: _ =>
          if c = 45 then
            match parse_bencoding_num_signed 64 input with
            | .error e => some (.error e)
            | .ok (_, r) => some (.ok r)
          else
            match parse_bencoding_num_unsigned 64 input with
            | .error e => some (.error e)
            | .ok (_, r) => some (.ok r)
      else if b = 108 then
        match skipListElems fuel rest with
        | Option.none => Option.none
        | some (.error e) => some (.error e)
        | some (.ok r1) =>
          match r1 with
          | [] => some (.error .eof)
          | c :: r2 =>
            if c = 101 then some (.ok r2) else some (.error .expectedArrayEnd)
      else if b = 100 then
        match skipMapEntries fuel rest with
        | Option.none => Option.none
        | some (.error e) => some (.error e)
        | some (.ok r1) =>
          match r1 with
          | [] => some (.error .eof)
          | c :: r2 =>
            if c = 101 then some (.ok r2) else some (.error .expectedMapEnd)
      else some (.error .syn)

/-- Skipped-list element loop. -/
def skipListElems : Nat → List Nat → Option (Except Error (List Nat))
  | 0, _ => Option.none
  | fuel + 1, input =>
    match input with
    | [] => some (.error .eof)
    | b :: _ =>
      if b = 101 then some (.ok input)
      else
        match skipValue fuel input with
        | Option.none => Option.none
        | some (.error e) => some (.error e)
        | some (.ok r1) => skipListElems fuel r1

/-- Skipped-map entry loop: keys must look like byte strings
(`ExpectedString` otherwise), values are skipped recursively. -/
def skipMapEntries : Nat → List Nat → Option (Except Error (List Nat))
  | 0, _ => Option.none
  | fuel + 1, input =>
    match input with
    | [] => some (.error .eof)
    | b :: _ =>
      if b = 101 then some (.ok input)
      else if isDigit b then
        match parse_string input with
        | .error e => some (.error e)
        | .ok (_, r1) =>
          match skipValue fuel r1 with
          | Option.none => Option.none
          | some (.error e) => some (.error e)
          | some (.ok r2) => skipMapEntries fuel r2
      else some (.error .expectedString)

end

/-- Recursion-depth budget that `from_bytes` hands to `decodeValue`:
between two fuel decrements at most a bounded number of frames run
without consuming a byte, so a linear budget always suffices for the
embedded decoder. -/
def initialFuel (_s : Schema) (input : List Nat) : Nat :=
  4 * input.length + 8

/-- `de::from_bytes`: deserialize one value, then require the input to be
fully consumed, else `Error::TrailingCharacters`. -/
def from_bytes (s : Schema) (input : List Nat) : Option (Except Error DValue) :=
  match decodeValue (initialFuel s input) s input with
  | Option.none => Option.none
  | some (.error e) => some (.error e)
  | some (.ok (v, rest)) =>
    if rest = [] then some (.ok v) else some (.error .trailingCharacters)

/-! ## The UDP tracker client (`src/client/src/tracker.rs`)

The receive-side logic is embedded as pure functions of the received
datagram `(buf, len)`: the 1024-byte receive buffer and the number of
bytes the socket reported.  `Option.none` again models a panic
(`assert!`, `unwrap`, `usize` underflow). -/

/-- Big-endian unsigned value of a byte list. -/
def beNat (bytes : List Nat) : Nat := bytes.foldl (fun acc b => acc * 256 + b % 256) 0

/-- Two's-complement reading of an unsigned `w`-bit pattern. -/
def toSigned (w : Nat) (n : Nat) : Int :=
  if n < 2 ^ (w - 1) then (n : Int) else (n : Int) - 2 ^ w

/-- `read_u32::<BigEndian>` at cursor position `pos`. -/
def readU32 (buf : List Nat) (pos : Nat) : Nat := beNat ((buf.drop pos).take 4)

/-- `read_u16::<BigEndian>` at cursor position `pos`. -/
def readU16 (buf : List Nat) (pos : Nat) : Nat := beNat ((buf.drop pos).take 2)

/-- `read_i32::<BigEndian>` at cursor position `pos`. -/
def readI32 (buf : List Nat) (pos : Nat) : Int := toSigned 32 (beNat ((buf.drop pos).take 4))

/-- `read_i64::<BigEndian>` at cursor position `pos`. -/
def readI64 (buf : List Nat) (pos : Nat) : Int := toSigned 64 (beNat ((buf.drop pos).take 8))

/-- `client::Error` (`src/client/src/error.rs`).  `tokioOther` stands for
`Error::Tokio(..)` wrapping the `io::ErrorKind::Other` error that
`read_announce_response` makes for an unknown action (re-wrapped as
`InvalidData` by `Connection::announce`'s `map_err`). -/
inductive TrackerError where
  | tokioOther
  | portsExhausted
  | incorrectTransactionId
  | incorrectAction
  | timeout
  | server (msg : List Nat)
deriving Repr, DecidableEq

/-- `ConnectResponse` of `tracker.rs`. -/
inductive ConnectResponse where
  | payload (transaction_id : Int) (action : Int) (connection_id : Int)
  | error (msg : List Nat)
deriving Repr, DecidableEq

/-- `Peer`: an IPv4 address and port as read off the wire. -/
structure Peer where
  ip : Nat
  port : Nat
deriving Repr, DecidableEq

/-- `AnnounceResponsePayload` (the `interval` keeps the raw `i32`
that `Duration::from_secs(interval as u64)` receives). -/
structure AnnounceResponsePayload where
  transaction_id : Int
  interval : Int
  num_leechers : Int
  num_seeders : Int
  peers : List Peer
deriving Repr, DecidableEq

/-- `AnnounceResponse` of `tracker.rs`. -/
inductive AnnounceResponse where
  | payload (p : AnnounceResponsePayload)
  | error (msg : List Nat)
deriving Repr, DecidableEq

/-- `read_connect_response(buf, nread)`: dispatch on the leading
big-endian `i32` action.  `CONNECT(0)` requires exactly 16 bytes (an
`assert!`) and reads the `i64` connection id at offset 8; `ERROR(3)`
takes the rest of the datagram as the message; anything else is
`Error::IncorrectAction`. -/
def read_connect_response (buf : List Nat) (nread : Nat) :
    Option (Except TrackerError ConnectResponse) :=
  if nread ≤ 4 then Option.none
  else
    let action := readI32 buf 0
    let tid := readI32 buf 4
    if action = 0 then
      if nread = 16 then some (.ok (.payload tid action (readI64 buf 8)))
      else Option.none
    else if action = 3 then
      if nread < 8 then Option.none
      else some (.ok (.error ((buf.drop 8).take (nread - 8))))
    else some (.error .incorrectAction)

/-- The post-receive logic of `connect` (`tracker.rs:203`): assert the
datagram has at least 16 bytes, parse it, reject an echoed transaction
id different from the sent one with `Error::IncorrectTransactionId`,
surface an `ERROR` payload as `Error::Server`, and otherwise return the
connection id. -/
def connect_on_datagram (transaction_id : Int) (buf : List Nat) (len : Nat) :
    Option (Except TrackerError Int) :=
  if len < 16 then Option.none
  else
    match read_connect_response buf len with
    | Option.none => Option.none
    | some (.error e) => some (.error e)
    | some (.ok (.payload tid _ cid)) =>
      if tid ≠ transaction_id then some (.error .incorrectTransactionId)
      else some (.ok cid)
    | some (.ok (.error s)) => some (.error (.server s))

/-- The 6-byte peers at offsets `20, 26, ...` of the datagram. -/
def readPeers (buf : List Nat) : Nat → Nat → List Peer
  | _, 0 => []
  | pos, n + 1 => ⟨readU32 buf pos, readU16 buf (pos + 4)⟩ :: readPeers buf (pos + 6) n

/-- `read_announce_response(buf, bytes_read)`: `ANNOUNCE(1)` reads
interval/leechers/seeders then 6-byte peers while at least `Peer::size()`
bytes remain, and `assert!(bytes_left == 0)`; `ERROR(3)` takes the rest
as the message; any other action is `io::Error::new(ErrorKind::Other, "")`
(an `Err` of the `std::io::Error` type, not a `client::Error`).
The `bytes_read - reader.position()` subtraction underflows (panics)
when `bytes_read < 20`, which `Connection::announce`'s assert prevents. -/
def read_announce_response (buf : List Nat) (bytes_read : Nat) :
    Option (Except Unit AnnounceResponse) :=
  let action := readI32 buf 0
  let tid := readI32 buf 4
  if action = 1 then
    if bytes_read < 20 then Option.none
    else if (bytes_read - 20) % 6 ≠ 0 then Option.none
    else
      some (.ok (.payload
        { transaction_id := tid
          interval := readI32 buf 8
          num_leechers := readI32 buf 12
          num_seeders := readI32 buf 16
          peers := readPeers buf 20 ((bytes_read - 20) / 6) }))
  else if action = 3 then
    if bytes_read < 8 then Option.none
    else some (.ok (.error ((buf.drop 8).take (bytes_read - 8))))
  else some (.error ())

/-- The ASCII bytes of the literal in `Connection::announce`'s
transaction-id check. -/
def incorrectTidMsg : List Nat := sb "received incorrect transaction id"

/-- The post-receive logic of `Connection::announce` (`tracker.rs:113`):
`assert!(len >= 20)`, parse the datagram (an `io::Error` becomes
`Error::Tokio(InvalidData)`), then return `Error::Server("received
incorrect transaction id")` on a transaction-id mismatch, `Error::Server`
for an `ERROR` payload, and the payload otherwise. -/
def announce_on_datagram (transaction_id : Int) (buf : List Nat) (len : Nat) :
    Option (Except TrackerError AnnounceResponsePayload) :=
  if len < 20 then Option.none
  else
    match read_announce_response buf len with
    | Option.none => Option.none
    | some (.error ()) => some (.error .tokioOther)
    | some (.ok (.payload res)) =>
      if res.transaction_id ≠ transaction_id then some (.error (.server incorrectTidMsg))
      else some (.ok res)
    | some (.ok (.error s)) => some (.error (.server s))


/-! ## The canonical encoder fragment

`Plain` values serialize by appending pure bytes to the output without
touching `map_state`; they are the value shapes for which the buffered
serializer is well behaved in any context. -/

mutual

/-- Value shapes whose serialization only appends to `output`. -/
def Plain : BValue → Bool
  | .vInt _ => true
  | .vUInt _ => true
  | .vStr _ => true
  | .vNone => true
  | .vList xs => PlainList xs
  | .vUnitVariant _ => true
  | .vTupleVariant _ vs => PlainList vs
  | _ => false

def PlainList : List BValue → Bool
  | [] => true
  | x :: xs => Plain x && PlainList xs

end

mutual

/-- The bytes a `Plain` value appends to the output. -/
def pureEnc : BValue → List Nat
  | .vInt n => encInt n
  | .vUInt n => encUInt n
  | .vStr s => encByteStr s
  | .vNone => []
  | .vList xs => 108 :: pureEncList xs ++ [101]
  | .vUnitVariant name => encByteStr name
  | .vTupleVariant name vs => 100 :: encByteStr name ++ 108 :: pureEncList vs ++ [101, 101]
  | _ => []

def pureEncList : List BValue → List Nat
  | [] => []
  | x :: xs => pureEnc x ++ pureEncList xs

end

/-- A list holding one record that itself holds a record-valued field:
the shape on which the buffered serializer loses enclosing output. -/
def nestedListValue : BValue :=
  .vList [.vStruct [(sb "n", .vStruct [(sb "x", .vUInt 1)])]]

/-- The decode schema matching `nestedListValue`. -/
def nestedListSchema : Schema :=
  .sList (.sRecord [(sb "n", .sRecord [(sb "x", .sU32)])])

/-- The schema of the source's `test_option_serialization` struct `S`. -/
def optionRecordSchema : Schema :=
  .sRecord [(sb "string_field", .sStr), (sb "other_field", .sList .sStr),
    (sb "another_field", .sOption .sStr)]

/-- A 1024-byte receive buffer holding a 16-byte CONNECT response:
action 0, transaction id 513, connection id bytes `AABBCCDDEEFF0011`. -/
def connectDatagram : List Nat :=
  [0, 0, 0, 0, 0, 0, 2, 1, 0xAA, 0xBB, 0xCC, 0xDD, 0xEE, 0xFF, 0x00, 0x11]
    ++ List.replicate 1008 0

/-- A 1024-byte receive buffer whose leading action field is 5 (unknown). -/
def unknownActionDatagram : List Nat :=
  [0, 0, 0, 5, 0, 0, 2, 1] ++ List.replicate 1016 0

/-- A 1024-byte receive buffer holding a 20-byte ANNOUNCE response
(action 1, transaction id 513, interval 1800, 3 leechers, 5 seeders,
no peers). -/
def announceDatagram : List Nat :=
  [0, 0, 0, 1, 0, 0, 2, 1, 0, 0, 7, 8, 0, 0, 0, 3, 0, 0, 0, 5] ++ List.replicate 1004 0

/-! ## Order and digit lemmas -/

theorem natDigitsCore_mem : ∀ (fuel n : Nat) (acc : List Nat) (b : Nat),
    b ∈ natDigitsCore fuel n acc → (48 ≤ b ∧ b ≤ 57) ∨ b ∈ acc := by
  intro fuel
  induction fuel with
  | zero => intro n acc b hb; right; simpa [natDigitsCore] using hb
  | succ fuel ih =>
    intro n acc b hb
    rw [natDigitsCore] at hb
    by_cases h : n < 10
    · simp only [h, if_true] at hb
      rcases List.mem_cons.mp hb with rfl | hb
      · left
        have : n % 10 < 10 := Nat.mod_lt _ (by omega)
        omega
      · right; exact hb
    · simp only [h, if_false] at hb
      rcases ih (n / 10) _ b hb with h1 | h1
      · left; exact h1
      · rcases List.mem_cons.mp h1 with rfl | hb
        · left
          have : n % 10 < 10 := Nat.mod_lt _ (by omega)
          omega
        · right; exact hb

theorem natDigits_mem (n b : Nat) (hb : b ∈ natDigits n) : 48 ≤ b ∧ b ≤ 57 := by
  rcases natDigitsCore_mem (n + 1) n [] b hb with h | h
  · exact h
  · simp at h

theorem findIdx?_append_first (p : Nat → Bool) :
    ∀ (pre : List Nat) (x : Nat) (suf : List Nat),
      (∀ b ∈ pre, p b = false) → p x = true →
      List.findIdx? p (pre ++ x :: suf) = some pre.length := by
  intro pre
  induction pre with
  | nil => intro x suf _ hx; simp [List.findIdx?_cons, hx]
  | cons a as ih =>
    intro x suf hpre hx
    have ha : p a = false := hpre a (List.mem_cons_self a as)
    have hrest : ∀ b ∈ as, p b = false := fun b hb => hpre b (List.mem_cons_of_mem a hb)
    simp [List.findIdx?_cons, ha, ih x suf hrest hx]

theorem encByteStr_findIdx (k : List Nat) :
    (encByteStr k).findIdx? (fun b => b == 58) = some (natDigits k.length).length := by
  rw [encByteStr]
  apply findIdx?_append_first
  · intro b hb
    have := natDigits_mem k.length b hb
    simp only [beq_eq_false_iff_ne, ne_eq]
    omega
  · simp

theorem postColon_encByteStr (k : List Nat) : postColon (encByteStr k) = k := by
  rw [postColon, encByteStr_findIdx]
  simp [encByteStr]


/-! ## Machine evaluation lemmas -/

mutual

theorem plain_serialize (v : BValue) (hp : Plain v = true) (o : List Nat) :
    serialize v ⟨o, Option.none⟩ = some ⟨o ++ pureEnc v, Option.none⟩ := by
  match v with
  | .vInt n => simp [serialize, pureEnc]
  | .vUInt n => simp [serialize, pureEnc]
  | .vStr s => simp [serialize, pureEnc]
  | .vNone => simp [serialize, pureEnc]
  | .vUnitVariant name => simp [serialize, pureEnc]
  | .vList xs =>
    have hxs : PlainList xs = true := by simpa [Plain] using hp
    have h := plain_serializeSeqElems xs hxs (o ++ [108])
    simp [serialize, pureEnc, h]
  | .vTupleVariant name vs =>
    have hvs : PlainList vs = true := by simpa [Plain] using hp
    have h := plain_serializeTupleElems vs hvs (o ++ 100 :: (encByteStr name ++ [108]))
    simp only [List.append_assoc, List.cons_append] at h
    simp [serialize, pureEnc, h, List.append_assoc]
  | .vStruct fields => simp [Plain] at hp
  | .vMap entries => simp [Plain] at hp
  | .vNewtypeVariant name v' => simp [Plain] at hp
  | .vStructVariant name fields => simp [Plain] at hp

theorem plain_serializeSeqElems (xs : List BValue) (hp : PlainList xs = true) (o : List Nat) :
    serializeSeqElems xs ⟨o, Option.none⟩ = some ⟨o ++ pureEncList xs, Option.none⟩ := by
  match xs with
  | [] => simp [serializeSeqElems, pureEncList]
  | x :: rest =>
    have hx : Plain x = true := by
      simp only [PlainList, Bool.and_eq_true] at hp
      exact hp.1
    have hr : PlainList rest = true := by
      simp only [PlainList, Bool.and_eq_true] at hp
      exact hp.2
    have h1 := plain_serialize x hx o
    have h2 := plain_serializeSeqElems rest hr (o ++ pureEnc x)
    simp [serializeSeqElems, h1, h2, pureEncList]

theorem plain_serializeTupleElems (xs : List BValue) (hp : PlainList xs = true) (o : List Nat) :
    serializeTupleElems xs ⟨o, Option.none⟩ = some ⟨o ++ pureEncList xs, Option.none⟩ := by
  match xs with
  | [] => simp [serializeTupleElems, pureEncList]
  | x :: rest =>
    have hx : Plain x = true := by
      simp only [PlainList, Bool.and_eq_true] at hp
      exact hp.1
    have hr : PlainList rest = true := by
      simp only [PlainList, Bool.and_eq_true] at hp
      exact hp.2
    have h1 := plain_serialize x hx o
    have h2 := plain_serializeTupleElems rest hr (o ++ pureEnc x)
    simp [serializeTupleElems, h1, h2, pureEncList]

end


theorem structFields_vNone (k : List Nat) :
    ∀ (pre post : List (List Nat × BValue)) (st : SerState) (ms : MapState),
      st.map_state = some ms →
      serializeStructFields (pre ++ (k, BValue.vNone) :: post) st =
        serializeStructFields (pre ++ post) st := by
  intro pre
  induction pre with
  | nil =>
    intro post st ms hms
    obtain ⟨o, mstate⟩ := st
    simp only at hms
    subst hms
    simp [serializeStructFields, serialize]
  | cons q pre' ih =>
    intro post st ms hms
    obtain ⟨o, mstate⟩ := st
    simp only at hms
    subst hms
    obtain ⟨k', v'⟩ := q
    simp only [List.cons_append, serializeStructFields]
    cases hsv : serialize v' ⟨[], Option.none⟩ with
    | none => rfl
    | some stV => exact ih post _ _ rfl


theorem connectDatagram_length : connectDatagram.length = 1024 := by
  rw [connectDatagram, List.length_append, List.length_replicate]
  rfl

theorem unknownActionDatagram_length : unknownActionDatagram.length = 1024 := by
  rw [unknownActionDatagram, List.length_append, List.length_replicate]
  rfl

theorem announceDatagram_length : announceDatagram.length = 1024 := by
  rw [announceDatagram, List.length_append, List.length_replicate]
  rfl

/-! ## Claim theorems -/

/-- C6: an absent optional field is omitted entirely from the containing
dictionary -- encoding a record with a `None` field equals encoding the
record without that field at all (no key, no placeholder) -- and decoding
a dictionary in which the key is missing yields absence (`None`) for the
field, as in the source's `test_option_serialization` shape. -/
theorem optional_none_field_omitted :
    (∀ (pre post : List (List Nat × BValue)) (k : List Nat),
      to_bytes (.vStruct (pre ++ (k, BValue.vNone) :: post)) =
        to_bytes (.vStruct (pre ++ post)))
  ∧ from_bytes optionRecordSchema (sb "d11:other_fieldle12:string_field6:abcdefe") =
      some (.ok (.dRecord [(sb "string_field", .dStr (sb "abcdef")),
        (sb "other_field", .dList []), (sb "another_field", .dOpt Option.none)])) := by
  constructor
  · intro pre post k
    simp only [to_bytes, serialize]
    rw [structFields_vNone k pre post ⟨[], some ⟨[], [], []⟩⟩ ⟨[], [], []⟩ rfl]
  · rfl


/-- C2 evidence of the encoder slip: for the encodable value
`[ { n: { x: 1 } } ]` (a one-element list whose element is a record with
a record-valued field), `serialize_field`'s buffer swap drops the
enclosing output (the list's opening `l`), so the encoding is the
malformed `d1:nd1:xi1eeee` and decoding it at the value's own schema
fails with `ExpectedList` -- `decode(encode(v)) == v` does not hold. -/
theorem roundtrip_fails_nested_in_list :
    to_bytes nestedListValue = some (sb "d1:nd1:xi1eeee")
  ∧ from_bytes nestedListSchema (sb "d1:nd1:xi1eeee") = some (.error .expectedList) := by
  constructor
  · simp [nestedListValue, to_bytes, serialize, serializeSeqElems, serializeStructFields,
      serializeDictEnd, write_dict_with_ordered_pairs, sortPairs, stableSort, sortInsert,
      postColon, encByteStr, encUInt, natDigits, natDigitsCore, sb, bytesLe]
  · rfl

/-- C3 (amended): decode consumes the entire buffer -- whenever a
complete value parses and unread bytes remain, `from_bytes` fails with
`TrailingCharacters`. -/
theorem trailing_bytes_rejected (s : Schema) (input : List Nat) (v : DValue)
    (rest : List Nat)
    (h : decodeValue (initialFuel s input) s input = some (.ok (v, rest)))
    (hne : rest ≠ []) :
    from_bytes s input = some (.error .trailingCharacters) := by
  simp [from_bytes, h, hne]

/-- Witness for C3: `i1e` followed by the extra byte `x`. -/
theorem trailing_bytes_rejected_witness :
    from_bytes .sU32 (sb "i1ex") = some (.error .trailingCharacters) :=
  trailing_bytes_rejected .sU32 (sb "i1ex") (.dUInt 1) [120] (by rfl) (by simp)

/-- C3 counterexample to the "in particular" part: for the encodable
value `nestedListValue`, decoding `encode(v) ++ extraByte` fails with
`ExpectedList` (the encoding is already malformed, see the C2 evidence),
not with `TrailingCharacters`. -/
theorem trailing_bytes_counterexample :
    to_bytes nestedListValue = some (sb "d1:nd1:xi1eeee")
  ∧ from_bytes nestedListSchema (sb "d1:nd1:xi1eeee" ++ [120]) =
      some (.error .expectedList)
  ∧ from_bytes nestedListSchema (sb "d1:nd1:xi1eeee" ++ [120]) ≠
      some (.error .trailingCharacters) := by
  refine ⟨?_, rfl, ?_⟩
  · simp [nestedListValue, to_bytes, serialize, serializeSeqElems, serializeStructFields,
      serializeDictEnd, write_dict_with_ordered_pairs, sortPairs, stableSort, sortInsert,
      postColon, encByteStr, encUInt, natDigits, natDigitsCore, sb, bytesLe]
  · intro hc
    exact absurd (Except.error.inj (Option.some.inj hc)) (by decide)

/-- C4 evidence: decoding `i9999999999999999999e` at the narrow unsigned
width `u32` does not fail -- the accumulation wraps modulo `2^32`
(release-profile semantics; a debug build panics on the overflow) and the
decoder returns the bogus value `9999999999999999999 mod 2^32`. -/
theorem integer_overflow_wraps :
    from_bytes .sU32 (sb "i9999999999999999999e") =
      some (.ok (.dUInt (9999999999999999999 % 2 ^ 32)))
  ∧ (9999999999999999999 : Nat) % 2 ^ 32 = 2313682943 := ⟨rfl, by norm_num⟩

/-- C5 counterexample: decoding `i01e` at `u32` succeeds (yielding 1)
instead of failing -- the decoder does not reject redundant leading
zeros. -/
theorem leading_zero_accepted :
    from_bytes .sU32 (sb "i01e") = some (.ok (.dUInt 1)) := rfl

/-- C5 (amended): `i01e` and `i-0e` are non-canonical wire forms, but the
decoder leniently accepts both, yielding the integers 1 and 0. -/
theorem lenient_noncanonical_integers :
    from_bytes .sU32 (sb "i01e") = some (.ok (.dUInt 1))
  ∧ from_bytes .sI32 (sb "i-0e") = some (.ok (.dInt 0)) := ⟨rfl, rfl⟩


/-- C7: on a 16-byte CONNECT-action response read into the 1024-byte
receive buffer, `connect` returns the big-endian `i64` held in bytes
8..16 when the echoed transaction id equals the sent one, and fails with
`Error::IncorrectTransactionId` when it differs. -/
theorem connect_validates_response (tid : Int) (buf : List Nat)
    (_hlen : buf.length = 1024) (haction : readI32 buf 0 = 0) :
    (readI32 buf 4 = tid →
      connect_on_datagram tid buf 16 = some (.ok (readI64 buf 8)))
  ∧ (readI32 buf 4 ≠ tid →
      connect_on_datagram tid buf 16 = some (.error .incorrectTransactionId)) := by
  constructor
  · intro hmatch
    simp [connect_on_datagram, read_connect_response, haction, hmatch]
  · intro hmm
    simp [connect_on_datagram, read_connect_response, haction, hmm]

/-- Witness for C7: from a response ending in `AABBCCDDEEFF0011` with the
matching transaction id 513, connect extracts the connection id whose
64-bit pattern is `0xAABBCCDDEEFF0011`; with the mismatching sent id 514
it fails with `IncorrectTransactionId`. -/
theorem connect_validates_response_witness :
    connect_on_datagram 513 connectDatagram 16 =
      some (.ok (toSigned 64 0xAABBCCDDEEFF0011))
  ∧ (toSigned 64 0xAABBCCDDEEFF0011).emod (2 ^ 64) = 0xAABBCCDDEEFF0011
  ∧ connect_on_datagram 514 connectDatagram 16 =
      some (.error .incorrectTransactionId) := by
  refine ⟨?_, by decide, ?_⟩
  · have h := (connect_validates_response 513 connectDatagram
      connectDatagram_length (by decide)).1 (by decide)
    have hb : readI64 connectDatagram 8 = toSigned 64 0xAABBCCDDEEFF0011 := by decide
    exact h.trans (by rw [hb])
  · exact (connect_validates_response 514 connectDatagram
      connectDatagram_length (by decide)).2 (by decide)

/-- C8 (amended): a response whose leading action is outside
{CONNECT(0), ANNOUNCE(1), SCRAPE(2), ERROR(3)} is rejected on both
paths, but only the connect path uses `Error::IncorrectAction`; the
announce path surfaces it as `Error::Tokio` (an `InvalidData`-wrapped IO
error produced in `read_announce_response`). -/
theorem unknown_action_rejected (tid : Int) (buf : List Nat) (len : Nat)
    (_hlen : buf.length = 1024)
    (ha0 : readI32 buf 0 ≠ 0) (ha1 : readI32 buf 0 ≠ 1)
    (_ha2 : readI32 buf 0 ≠ 2) (ha3 : readI32 buf 0 ≠ 3) :
    (16 ≤ len → connect_on_datagram tid buf len = some (.error .incorrectAction))
  ∧ (20 ≤ len → announce_on_datagram tid buf len = some (.error .tokioOther)) := by
  constructor
  · intro hl
    have h4 : ¬ (len ≤ 4) := by omega
    have h16 : ¬ (len < 16) := by omega
    simp [connect_on_datagram, read_connect_response, ha0, ha3, h4, h16]
  · intro hl
    have h20 : ¬ (len < 20) := by omega
    simp [announce_on_datagram, read_announce_response, ha1, ha3, h20]

/-- C8 counterexample: on the announce path, a response with the unknown
action 5 is rejected with `Error::Tokio`, not with the
`Error::IncorrectAction` the claim requires on both paths. -/
theorem unknown_action_announce_counterexample :
    announce_on_datagram 513 unknownActionDatagram 20 = some (.error .tokioOther)
  ∧ announce_on_datagram 513 unknownActionDatagram 20 ≠
      some (.error .incorrectAction) := by
  refine ⟨rfl, ?_⟩
  intro hc
  exact absurd (Except.error.inj (Option.some.inj hc)) (by decide)

/-- Witness for C8: the unknown action 5, on both paths. -/
theorem unknown_action_rejected_witness :
    connect_on_datagram 513 unknownActionDatagram 16 = some (.error .incorrectAction)
  ∧ announce_on_datagram 513 unknownActionDatagram 20 = some (.error .tokioOther) := by
  have h := unknown_action_rejected 513 unknownActionDatagram 20
    unknownActionDatagram_length (by decide) (by decide) (by decide) (by decide)
  have h16 := unknown_action_rejected 513 unknownActionDatagram 16
    unknownActionDatagram_length (by decide) (by decide) (by decide) (by decide)
  exact ⟨h16.1 (by omega), h.2 (by omega)⟩

/-- C9: on the announce path a mismatched echoed transaction id is never
returned as a successful payload; the surfaced error is
`Error::Server("received incorrect transaction id")`, not the
`IncorrectTransactionId` variant the connect path uses. -/
theorem announce_tid_mismatch_is_server_error (tid : Int) (buf : List Nat) (len : Nat)
    (_hlen : buf.length = 1024) (hl : 20 ≤ len)
    (ha : readI32 buf 0 = 1) (hmul : (len - 20) % 6 = 0)
    (hmm : readI32 buf 4 ≠ tid) :
    announce_on_datagram tid buf len = some (.error (.server incorrectTidMsg))
  ∧ (∀ p, announce_on_datagram tid buf len ≠ some (.ok p))
  ∧ announce_on_datagram tid buf len ≠ some (.error .incorrectTransactionId) := by
  have hmain : announce_on_datagram tid buf len = some (.error (.server incorrectTidMsg)) := by
    simp [announce_on_datagram, read_announce_response, ha, hmul, hmm, Nat.not_lt.mpr hl]
  refine ⟨hmain, ?_, ?_⟩
  · intro p hc
    rw [hmain] at hc
    exact absurd (Option.some.inj hc) (by simp)
  · intro hc
    rw [hmain] at hc
    have := Except.error.inj (Option.some.inj hc)
    simp [incorrectTidMsg] at this

/-- Witness for C9: the concrete no-peer ANNOUNCE datagram echoing
transaction id 513 against the sent id 999. -/
theorem announce_tid_mismatch_witness :
    announce_on_datagram 999 announceDatagram 20 =
      some (.error (.server incorrectTidMsg)) :=
  (announce_tid_mismatch_is_server_error 999 announceDatagram 20
    announceDatagram_length (by omega) (by decide) (by decide) (by decide)).1

/-- C10: the announce receive path enforces framing with assertions
rather than errors -- a datagram shorter than 20 bytes trips
`assert!(len >= 20)`, and an ANNOUNCE-action datagram whose length minus
the 20-byte header is not a multiple of `Peer::size()` (6) trips
`assert!(bytes_left == 0)`; both are panics (`Option.none`), not error
returns. -/
theorem announce_framing_asserts (tid : Int) (buf : List Nat) (len : Nat) :
    (len < 20 → announce_on_datagram tid buf len = Option.none)
  ∧ (readI32 buf 0 = 1 → 20 ≤ len → (len - 20) % 6 ≠ 0 →
      announce_on_datagram tid buf len = Option.none) := by
  constructor
  · intro h
    simp [announce_on_datagram, h]
  · intro ha hl hmod
    simp [announce_on_datagram, read_announce_response, ha, hmod, Nat.not_lt.mpr hl]

/-- Witness for C10: a 19-byte datagram panics, and a 23-byte
ANNOUNCE-action datagram (3 trailing bytes after the header) panics. -/
theorem announce_framing_asserts_witness :
    announce_on_datagram 513 announceDatagram 19 = Option.none
  ∧ announce_on_datagram 513 announceDatagram 23 = Option.none :=
  ⟨(announce_framing_asserts 513 announceDatagram 19).1 (by omega),
   (announce_framing_asserts 513 announceDatagram 23).2 (by rfl) (by omega) (by decide)⟩

end Thor
